import Mathlib

/-!
# Verification of the Cotacao frontend watchlist / refresh / history core

Shallow embedding of the stock-quote dashboard's client-side core:

* `StockList` component (src/unnamed/part_001): `fetchStockData`,
  `handleSearch`, the input `onChange` handler, and the periodic refresh
  effect (`setInterval` tick with `Promise.all` + `setStocksList` merge).
* `useStockHistory` hook (src/frontend/src/hooks/useStockHistory.js): the
  paginated do-while history fetch.

JavaScript numbers appear only as opaque payload values here (no claim does
arithmetic on them), so they are embedded as `Int`. Possibly-absent response
fields are `Option`s, with the `|| 0` / `|| 'N/A'` defaulting made explicit.
Network outcomes are passed in as explicit parameters (an `LookupOutcome`
per call for the stock lookup, a page-indexed response function for the
history API), so every function is pure and executable.
-/

set_option autoImplicit false

namespace Cotacao

/-- A snapshot of price/fundamental fields, as built by `fetchStockData`
(the `data` object of a watchlist entry). -/
structure StockData where
  currentPrice : Int
  industry : String
  sector : String
  grossMargin : Int
  netMargin : Int
  priceEarning : Int
  variation : Int
  deriving DecidableEq, Repr

/-- One entry of `stocksList`: `{ ticker, data }`. -/
structure StockEntry where
  ticker : String
  data : StockData
  deriving DecidableEq, Repr

/-- The fields of the lookup API's `response.data.data` object. Each is
optional: the JS code reads them with a `|| default` fallback. -/
structure ApiStockFields where
  actualPrice : Option Int
  industry : Option String
  sector : Option String
  grossMargin : Option Int
  netMargin : Option Int
  priceEarning : Option Int
  variation : Option Int
  deriving DecidableEq, Repr

/-- The lookup API's `response.data`: `{ success, data }`. -/
structure LookupResponse where
  success : Bool
  data : ApiStockFields
  deriving DecidableEq, Repr

/-- Outcome of one `axios.get` on `/stock/{ticker}`: either a response
arrives, or the call throws (network failure / rejection). -/
inductive LookupOutcome where
  | ok (resp : LookupResponse)
  | netError
  deriving DecidableEq, Repr

/-- JS `x || 0` for a possibly-absent numeric field: `undefined` becomes 0
(an actual 0 is falsy too, but `|| 0` maps it to 0 again). -/
def jsNumOr0 (x : Option Int) : Int :=
  x.getD 0

/-- JS `x || 'N/A'` for a possibly-absent string field: `undefined` and the
empty string (both falsy) become `"N/A"`. -/
def jsStrOrNA (x : Option String) : String :=
  match x with
  | none => "N/A"
  | some s => if s = "" then "N/A" else s

/-- Builds the `data` object from `response.data.data` exactly as the JS
object literal in `fetchStockData` does. -/
def buildSnapshot (f : ApiStockFields) : StockData :=
  { currentPrice := jsNumOr0 f.actualPrice
    industry := jsStrOrNA f.industry
    sector := jsStrOrNA f.sector
    grossMargin := jsNumOr0 f.grossMargin
    netMargin := jsNumOr0 f.netMargin
    priceEarning := jsNumOr0 f.priceEarning
    variation := jsNumOr0 f.variation }

/-- `fetchStockData(ticker)` given the outcome of its network call.
Returns the produced entry (or `null` = `none`) together with a flag that
is `true` exactly when the function called `setSearchError(true)`:
it does so both when `response.data.success` is false and in the `catch`
branch; on success it does not touch `searchError`. -/
def fetchStockData (ticker : String) (outcome : LookupOutcome) :
    Option StockEntry × Bool :=
  match outcome with
  | .netError => (none, true)
  | .ok resp =>
      if resp.success then
        (some { ticker := ticker, data := buildSnapshot resp.data }, false)
      else
        (none, true)

/-- The React component's state variables. -/
structure ListState where
  searchTicker : String
  stocksList : List StockEntry
  searchError : Bool
  searchEqual : Bool
  isLoading : Bool
  deriving DecidableEq, Repr

/-- JS `String.prototype.toUpperCase()` restricted to the simple per-character
mapping (sufficient for the ASCII ticker strings at issue). This is what
Lean's `String.toUpper` computes, stated directly on the character list so
that the kernel can evaluate it (`String.mapAux` is well-founded recursion
and does not reduce definitionally). -/
def jsToUpper (s : String) : String :=
  ⟨s.data.map Char.toUpper⟩

/-- The search input's `onChange` handler: stores the uppercased raw value
(no trimming) and clears both error flags. -/
def onChangeInput (st : ListState) (raw : String) : ListState :=
  { st with
    searchTicker := jsToUpper raw
    searchError := false
    searchEqual := false }

/-- The discrete outcome of one `handleSearch` run, read off from the branch
the code takes (the JS function returns no value itself). -/
inductive SearchResult where
  | noop
  | alreadyTracked
  | added
  | notFound
  deriving DecidableEq, Repr

/-- `handleSearch()` from the component, with the lookup outcome passed in.
Returns the new state, the branch taken, and the number of network calls
made.

Mirrors the JS control flow: an empty `searchTicker` (falsy) returns early
with `setSearchError(false)`; a ticker already in `stocksList` (strict
`===` comparison) returns early with `setSearchEqual(true)`; otherwise
`setIsLoading(true)`, `setSearchError(false)`, one `fetchStockData` call
(which may set `searchError` back to true), append on success and clear the
input, then `setIsLoading(false)`. -/
def handleSearch (st : ListState) (outcome : LookupOutcome) :
    ListState × SearchResult × Nat :=
  if st.searchTicker = "" then
    ({ st with searchError := false }, .noop, 0)
  else if st.stocksList.any (fun s => s.ticker = st.searchTicker) then
    ({ st with searchEqual := true }, .alreadyTracked, 0)
  else
    match fetchStockData st.searchTicker outcome with
    | (some newStock, flag) =>
        ({ st with
            stocksList := st.stocksList ++ [newStock]
            searchTicker := ""
            searchError := flag
            isLoading := false }, .added, 1)
    | (none, flag) =>
        ({ st with
            searchError := flag
            isLoading := false }, .notFound, 1)

/-- One full user submission: type `raw` into the input (`onChange`), then
click Search (`handleSearch`). -/
def submitRaw (st : ListState) (raw : String) (outcome : LookupOutcome) :
    ListState × SearchResult × Nat :=
  handleSearch (onChangeInput st raw) outcome

/-- The merge step of the refresh tick:
`prev.map((stock, index) => updatedStocks[index] ? updatedStocks[index] : stock)`.
Entry objects are always truthy, so position `i` takes `updatedStocks[i]`
when it exists (`i < updatedStocks.length`) and keeps `stock` otherwise. -/
def mergeRefresh : List StockEntry → List StockEntry → List StockEntry
  | [], _ => []
  | s :: prev, [] => s :: mergeRefresh prev []
  | _s :: prev, u :: updated => u :: mergeRefresh prev updated

/-- One element of the tick's `Promise.all` fan-out:
`const updatedStock = await fetchStockData(stock.ticker); return updatedStock || stock;`. -/
def updatedStock (fetch : String → LookupOutcome) (s : StockEntry) : StockEntry :=
  match (fetchStockData s.ticker (fetch s.ticker)).1 with
  | some u => u
  | none => s

/-- The array produced by `Promise.all(stocksList.map(...))` on a tick.
`Promise.all` resolves to results in the order the promises were created
(watchlist order), independent of settlement order. -/
def refreshResults (l : List StockEntry) (fetch : String → LookupOutcome) :
    List StockEntry :=
  l.map (updatedStock fetch)

/-- One interval tick of the refresh effect on the full component state:
fan out `fetchStockData` over the watchlist, then
`setStocksList(prev => prev.map((stock, index) => ...))`. Any failing
per-ticker fetch also ran `setSearchError(true)` inside `fetchStockData`. -/
def refreshTickState (st : ListState) (fetch : String → LookupOutcome) :
    ListState :=
  let updatedStocks := refreshResults st.stocksList fetch
  { st with
    stocksList := mergeRefresh st.stocksList updatedStocks
    searchError :=
      st.searchError ||
        st.stocksList.any (fun s => (fetchStockData s.ticker (fetch s.ticker)).2) }

/-- A history point `{date, close}`. -/
structure HistoryPoint where
  date : String
  close : Int
  deriving DecidableEq, Repr

/-- One `/history` response: `{ data, pagination: { total_pages } }`. -/
structure HistoryPage where
  data : List HistoryPoint
  total_pages : Int
  deriving DecidableEq, Repr

/-- The do-while loop of the `useStockHistory` query function, with explicit
fuel because the JS loop is not syntactically terminating (an adversarial
response stream that keeps raising `total_pages` loops forever). Arguments
after the response stream: remaining fuel, `page`, accumulated `allData`,
and the number of fetch calls made so far. `none` means the fuel ran out
before the loop exited; `totalPages` is (re)read from each response before
the `page <= totalPages` test, so the JS initialisation `totalPages = 1` is
never consulted and needs no argument. -/
def historyLoop (resp : Nat → HistoryPage) :
    Nat → Nat → List HistoryPoint → Nat → Option (List HistoryPoint × Nat)
  | 0, _, _, _ => none
  | fuel + 1, page, allData, calls =>
      let r := resp page
      let allData := allData ++ r.data
      let totalPages := r.total_pages
      let page := page + 1
      if (page : Int) ≤ totalPages then
        historyLoop resp fuel page allData (calls + 1)
      else
        some (allData, calls + 1)

/-- Result of the query function: `null` (empty ticker) or the concatenated
point list. -/
inductive HistoryQueryResult where
  | nullResult
  | points (pts : List HistoryPoint)
  deriving DecidableEq, Repr

/-- The `queryFn` of `useStockHistory`: `if (!ticker) return null;` then the
do-while from page 1. Returns the result and the number of fetch calls;
`none` only when the fuel is exhausted first. -/
def fetchHistoryQuery (ticker : String) (resp : Nat → HistoryPage)
    (fuel : Nat) : Option (HistoryQueryResult × Nat) :=
  if ticker = "" then
    some (.nullResult, 0)
  else
    (historyLoop resp fuel 1 [] 0).map (fun r => (.points r.1, r.2))

/-- The hook's `enabled: !!ticker` option: the query runs only for a
truthy (non-empty) ticker string. -/
def historyQueryEnabled (ticker : String) : Bool :=
  !(ticker == "")

/-- A throwaway snapshot used to build concrete watchlist entries in
counterexamples and witnesses. -/
def demoData (n : Int) : StockData :=
  { currentPrice := n
    industry := "N/A"
    sector := "N/A"
    grossMargin := 0
    netMargin := 0
    priceEarning := 0
    variation := 0 }

/-! ## Helper lemmas about the refresh tick -/

theorem fetchStockData_ticker (t : String) (o : LookupOutcome) (u : StockEntry)
    (h : (fetchStockData t o).1 = some u) : u.ticker = t := by
  cases o with
  | netError => simp [fetchStockData] at h
  | ok resp =>
      by_cases hs : resp.success
      · simp [fetchStockData, hs] at h
        simp [← h]
      · simp [fetchStockData, hs] at h

theorem updatedStock_ticker (fetch : String → LookupOutcome) (s : StockEntry) :
    (updatedStock fetch s).ticker = s.ticker := by
  unfold updatedStock
  cases h : (fetchStockData s.ticker (fetch s.ticker)).1 with
  | none => rfl
  | some u => exact fetchStockData_ticker s.ticker (fetch s.ticker) u h

theorem updatedStock_eq_or_data (fetch : String → LookupOutcome) (s : StockEntry) :
    updatedStock fetch s = s ∨
      ∃ d, updatedStock fetch s = { ticker := s.ticker, data := d } := by
  rcases h : updatedStock fetch s with ⟨t, d⟩
  right
  refine ⟨d, ?_⟩
  have ht : t = s.ticker := by
    have := updatedStock_ticker fetch s
    rw [h] at this
    exact this
  rw [ht]

theorem mergeRefresh_map_self (f : StockEntry → StockEntry)
    (l : List StockEntry) : mergeRefresh l (l.map f) = l.map f := by
  induction l with
  | nil => rfl
  | cons s rest ih => simp [mergeRefresh, ih]

theorem refreshTickState_stocksList (st : ListState)
    (fetch : String → LookupOutcome) :
    (refreshTickState st fetch).stocksList =
      st.stocksList.map (updatedStock fetch) := by
  unfold refreshTickState refreshResults
  simp [mergeRefresh_map_self]

theorem mergeRefresh_get?_of_length_le (prev updated : List StockEntry)
    (i : Nat) (h : updated.length ≤ i) :
    (mergeRefresh prev updated).get? i = prev.get? i := by
  induction prev generalizing updated i with
  | nil => cases updated <;> rfl
  | cons s rest ih =>
      cases updated with
      | nil =>
          have : mergeRefresh (s :: rest) [] = s :: mergeRefresh rest [] := rfl
          rw [this]
          cases i with
          | zero => rfl
          | succ j => simpa using ih [] j (Nat.zero_le j)
      | cons u urest =>
          cases i with
          | zero => simp at h
          | succ j =>
              have : mergeRefresh (s :: rest) (u :: urest) =
                  u :: mergeRefresh rest urest := rfl
              rw [this]
              simpa using ih urest j (Nat.le_of_succ_le_succ h)

/-! ## Claims about the refresh merge (C1, C2, C3) -/

/-- C1: for every watchlist and every refresh-results sequence (every
assignment of per-ticker lookup outcomes), the tick's merge preserves the
number of entries, keeps each position's ticker, and at most replaces the
`data` field of an entry. -/
theorem refreshTick_preserves_shape (st : ListState)
    (fetch : String → LookupOutcome) :
    (refreshTickState st fetch).stocksList.length = st.stocksList.length ∧
    ∀ i : Nat,
      ((refreshTickState st fetch).stocksList.get? i).map StockEntry.ticker =
        (st.stocksList.get? i).map StockEntry.ticker ∧
      ((refreshTickState st fetch).stocksList.get? i = st.stocksList.get? i ∨
        ∃ e d, st.stocksList.get? i = some e ∧
          (refreshTickState st fetch).stocksList.get? i =
            some { ticker := e.ticker, data := d }) := by
  rw [refreshTickState_stocksList]
  refine ⟨by simp, fun i => ⟨?_, ?_⟩⟩
  · rw [List.get?_map]
    cases h : st.stocksList.get? i with
    | none => rfl
    | some e => simp [updatedStock_ticker]
  · rw [List.get?_map]
    cases h : st.stocksList.get? i with
    | none => left; rfl
    | some e =>
        rcases updatedStock_eq_or_data fetch e with heq | ⟨d, hd⟩
        · left; simp [heq]
        · right; exact ⟨e, d, rfl, by simp [hd]⟩

/-- C2 counterexample: the merge is keyed by index position, not by ticker,
so merging a permutation of a results sequence can change the final state:
with watchlist `[AAPL, MSFT]`, the in-order results and their swap produce
different (ticker-reordered) lists. -/
theorem mergeRefresh_perm_sensitive :
    List.Perm
      [({ ticker := "MSFT", data := demoData 20 } : StockEntry),
       { ticker := "AAPL", data := demoData 10 }]
      [{ ticker := "AAPL", data := demoData 10 },
       { ticker := "MSFT", data := demoData 20 }] ∧
    mergeRefresh
        [{ ticker := "AAPL", data := demoData 1 },
         { ticker := "MSFT", data := demoData 2 }]
        [{ ticker := "MSFT", data := demoData 20 },
         { ticker := "AAPL", data := demoData 10 }] ≠
      mergeRefresh
        [{ ticker := "AAPL", data := demoData 1 },
         { ticker := "MSFT", data := demoData 2 }]
        [{ ticker := "AAPL", data := demoData 10 },
         { ticker := "MSFT", data := demoData 20 }] := by
  constructor
  · exact List.Perm.swap _ _ _
  · decide

/-- C2 amended: the merge is keyed by index position, not by ticker. The
tick's final watchlist is the pointwise image of the current watchlist
under each entry's own ticker's fetch outcome — a function of the watchlist
and the outcome assignment only, hence independent of arrival order (which
is not even an input: `Promise.all` yields results in fan-out order) — and
entries at positions beyond the results' length are untouched. -/
theorem refreshMerge_index_keyed (st : ListState)
    (fetch : String → LookupOutcome) :
    (refreshTickState st fetch).stocksList =
      st.stocksList.map (updatedStock fetch) ∧
    ∀ (prev updated : List StockEntry) (i : Nat), updated.length ≤ i →
      (mergeRefresh prev updated).get? i = prev.get? i := by
  exact ⟨refreshTickState_stocksList st fetch, mergeRefresh_get?_of_length_le⟩

/-- Witness for `refreshMerge_index_keyed` at a concrete state, fetch
assignment, and out-of-range index. -/
theorem refreshMerge_index_keyed_witness :
    (refreshTickState
        { searchTicker := "", stocksList := [{ ticker := "AAPL", data := demoData 1 }],
          searchError := false, searchEqual := false, isLoading := false }
        (fun _ => .netError)).stocksList =
      ([{ ticker := "AAPL", data := demoData 1 }] : List StockEntry).map
        (updatedStock (fun _ => .netError)) ∧
    (mergeRefresh [{ ticker := "AAPL", data := demoData 1 }] []).get? 0 =
      ([{ ticker := "AAPL", data := demoData 1 }] : List StockEntry).get? 0 := by
  have h := refreshMerge_index_keyed
    { searchTicker := "", stocksList := [{ ticker := "AAPL", data := demoData 1 }],
      searchError := false, searchEqual := false, isLoading := false }
    (fun _ => .netError)
  exact ⟨h.1, h.2 [{ ticker := "AAPL", data := demoData 1 }] [] 0 (by decide)⟩

/-- C3: on a tick over a two-entry watchlist where the first ticker's fetch
succeeds and the second rejects (throws), the first entry is replaced by the
new snapshot, the second keeps its previous value, the tick handler yields a
well-defined state (no exception escapes: the failure is caught inside
`fetchStockData`), and the failing fetch is signalled as `null` (`none`). -/
theorem refreshTick_one_failure (st : ListState) (e1 e2 : StockEntry)
    (fetch : String → LookupOutcome) (resp : LookupResponse)
    (hl : st.stocksList = [e1, e2])
    (h1 : fetch e1.ticker = .ok resp) (hs : resp.success = true)
    (h2 : fetch e2.ticker = .netError) :
    (refreshTickState st fetch).stocksList =
      [{ ticker := e1.ticker, data := buildSnapshot resp.data }, e2] ∧
    (fetchStockData e2.ticker (fetch e2.ticker)).1 = none := by
  rw [refreshTickState_stocksList, hl]
  constructor
  · simp [updatedStock, fetchStockData, h1, h2, hs]
  · rw [h2]; rfl

/-- Concrete response fields used in witnesses. -/
def demoFields : ApiStockFields :=
  { actualPrice := some 7, industry := none, sector := none,
    grossMargin := none, netMargin := none, priceEarning := none,
    variation := none }

/-- Concrete successful lookup response used in witnesses. -/
def demoResp : LookupResponse :=
  { success := true, data := demoFields }

/-- Concrete fetch assignment: AAPL's lookup succeeds, every other ticker's
call throws. -/
def demoFetch : String → LookupOutcome :=
  fun t => if t = "AAPL" then .ok demoResp else .netError

/-- Concrete two-entry component state used in witnesses. -/
def demoState2 : ListState :=
  { searchTicker := "", stocksList :=
      [{ ticker := "AAPL", data := demoData 1 },
       { ticker := "MSFT", data := demoData 2 }],
    searchError := false, searchEqual := false, isLoading := false }

/-- Witness for `refreshTick_one_failure`: AAPL's fetch succeeds, MSFT's
throws. -/
theorem refreshTick_one_failure_witness :
    (refreshTickState demoState2 demoFetch).stocksList =
      [{ ticker := "AAPL", data := buildSnapshot demoFields },
       { ticker := "MSFT", data := demoData 2 }] ∧
    (fetchStockData "MSFT" (demoFetch "MSFT")).1 = none := by
  exact refreshTick_one_failure demoState2
    { ticker := "AAPL", data := demoData 1 }
    { ticker := "MSFT", data := demoData 2 } demoFetch demoResp rfl
    (by decide) rfl (by decide)

/-! ## Claims about the search controller (C6, C7) -/

/-- The entry produced by a successful lookup for the raw input
`"  aapl "`: the stored ticker keeps its surrounding spaces, because the
input handler uppercases but never trims. -/
def demoSpacedEntry : StockEntry :=
  { ticker := "  AAPL ", data := buildSnapshot demoFields }

/-- The initial component state (`useState` initialisers). -/
def initialState : ListState :=
  { searchTicker := "", stocksList := [], searchError := false,
    searchEqual := false, isLoading := false }

/-- C6 counterexample: submitting the raw input `"  aapl "` does not add an
entry for the ticker `"AAPL"`: normalization never trims, so the entry's
ticker is `"  AAPL "`, spaces included. -/
theorem submitSearch_no_trim :
    ((submitRaw initialState "  aapl " (.ok demoResp)).1.stocksList.map
        StockEntry.ticker = ["  AAPL "]) ∧
    "  AAPL " ≠ "AAPL" := by
  constructor
  · decide
  · decide

/-- C6 amended: the input is uppercased but not trimmed, so `"  aapl "` is
treated as the ticker `"  AAPL "`. Submitting it twice in succession (with
any second lookup outcome) yields `Added` with one network call, then
`AlreadyTracked` with no network call (the duplicate check is exact string
equality against the already-uppercased keys), and the watchlist holds
exactly one entry for that ticker throughout. -/
theorem submitSearch_twice_added_then_tracked (out2 : LookupOutcome) :
    submitRaw initialState "  aapl " (.ok demoResp) =
      ({ searchTicker := "", stocksList := [demoSpacedEntry],
         searchError := false, searchEqual := false, isLoading := false },
       .added, 1) ∧
    submitRaw
        { searchTicker := "", stocksList := [demoSpacedEntry],
          searchError := false, searchEqual := false, isLoading := false }
        "  aapl " out2 =
      ({ searchTicker := "  AAPL ", stocksList := [demoSpacedEntry],
         searchError := false, searchEqual := true, isLoading := false },
       .alreadyTracked, 0) ∧
    List.countP (fun s => s.ticker = "  AAPL ") [demoSpacedEntry] = 1 := by
  refine ⟨by decide, ?_, by decide⟩
  unfold submitRaw onChangeInput handleSearch
  rw [if_neg (by decide), if_pos (by decide)]
  decide

/-- C7: for a non-empty ticker not yet in the watchlist, a lookup that
reports `success: false` and a lookup call that throws produce the same
result: the not-found branch, one network call, the error flag set, and the
watchlist left unchanged (the returned state differs from the input only in
`searchError` and `isLoading`). -/
theorem handleSearch_failure_notFound (st : ListState) (outcome : LookupOutcome)
    (hne : ¬ st.searchTicker = "")
    (hnew : st.stocksList.any (fun s => s.ticker = st.searchTicker) = false)
    (hfail : outcome = .netError ∨
      ∃ resp, outcome = .ok resp ∧ resp.success = false) :
    handleSearch st outcome =
      ({ st with searchError := true, isLoading := false }, .notFound, 1) := by
  unfold handleSearch
  rw [if_neg hne, if_neg (by simp [hnew])]
  rcases hfail with h | ⟨resp, h, hs⟩
  · subst h; rfl
  · subst h; simp [fetchStockData, hs]

/-- A concrete state tracking AAPL with the unknown ticker ZZZZ typed into
the search box. -/
def demoStateZ : ListState :=
  { searchTicker := "ZZZZ", stocksList := [{ ticker := "AAPL", data := demoData 1 }],
    searchError := false, searchEqual := false, isLoading := false }

/-- Witness for `handleSearch_failure_notFound`: a thrown lookup for ZZZZ. -/
theorem handleSearch_failure_notFound_witness :
    handleSearch demoStateZ .netError =
      ({ demoStateZ with searchError := true, isLoading := false },
       .notFound, 1) := by
  exact handleSearch_failure_notFound demoStateZ .netError (by decide) (by decide)
    (Or.inl rfl)

/-! ## C8: a refresh failure is not invisible to the user -/

/-- C8 (code bug): on a refresh tick whose per-ticker fetch throws, the
entries do retain their last snapshots, but `fetchStockData`'s catch branch
runs `setSearchError(true)`, so the inline search-field error flag (which
renders the "Ticker not found!" message) is switched on by a background
refresh failure — contradicting the claim that no user-visible
error-display state changes. -/
theorem refreshFailure_sets_searchError :
    (refreshTickState demoState2 (fun _ => .netError)).searchError = true ∧
    demoState2.searchError = false ∧
    (refreshTickState demoState2 (fun _ => .netError)).stocksList =
      demoState2.stocksList := by
  refine ⟨by decide, by decide, by decide⟩

/-! ## Reachable component states and C9 -/

/-- States the component can pass through: the initial `useState` values,
followed by any interleaving of typing into the input (`onChange`), search
submissions (with any lookup outcome), and refresh ticks (with any
per-ticker outcomes). This over-approximates the real UI (it ignores the
button's `isLoading` disabling), so invariants proved over it hold for the
real flows too. -/
inductive Reachable : ListState → Prop where
  | init : Reachable initialState
  | typing (st : ListState) (raw : String) (h : Reachable st) :
      Reachable (onChangeInput st raw)
  | search (st : ListState) (outcome : LookupOutcome) (h : Reachable st) :
      Reachable (handleSearch st outcome).1
  | tick (st : ListState) (fetch : String → LookupOutcome) (h : Reachable st) :
      Reachable (refreshTickState st fetch)

theorem refreshTick_tickers (st : ListState) (fetch : String → LookupOutcome) :
    (refreshTickState st fetch).stocksList.map StockEntry.ticker =
      st.stocksList.map StockEntry.ticker := by
  rw [refreshTickState_stocksList, List.map_map]
  exact List.map_congr_left (fun a _ => updatedStock_ticker fetch a)

/-- In every reachable state, the `searchEqual` ("already tracked") flag is
set only while the input holds a non-empty ticker that is in the watchlist:
every path that sets it keeps the input, and every path that empties the
input clears or preserves a cleared flag. -/
theorem reachable_searchEqual_inv (st : ListState) (h : Reachable st) :
    st.searchEqual = true →
      ¬ st.searchTicker = "" ∧
        st.searchTicker ∈ st.stocksList.map StockEntry.ticker := by
  induction h with
  | init => intro he; simp [initialState] at he
  | typing st raw _ _ => intro he; simp [onChangeInput] at he
  | search st outcome _ ih =>
      unfold handleSearch
      by_cases h1 : st.searchTicker = ""
      · rw [if_pos h1]
        intro he
        exact absurd h1 (ih he).1
      · rw [if_neg h1]
        by_cases h2 : st.stocksList.any (fun s => s.ticker = st.searchTicker) = true
        · rw [if_pos h2]
          intro _
          refine ⟨h1, ?_⟩
          simp only [List.any_eq_true, decide_eq_true_eq] at h2
          obtain ⟨s, hs, hts⟩ := h2
          exact List.mem_map.mpr ⟨s, hs, hts⟩
        · rw [if_neg h2]
          rcases hres : fetchStockData st.searchTicker outcome with ⟨res, flag⟩
          cases res with
          | some newStock =>
              intro he
              obtain ⟨_, hmem⟩ := ih he
              obtain ⟨s, hs, hts⟩ := List.mem_map.mp hmem
              exact absurd (List.any_eq_true.mpr ⟨s, hs, by simp [hts]⟩) h2
          | none =>
              intro he
              exact ih he
  | tick st fetch _ ih =>
      intro he
      have h := ih he
      refine ⟨h.1, ?_⟩
      rw [refreshTick_tickers]
      exact h.2

/-- Modelled from the spec: §3 defines input normalization as
"trim + uppercase". The code itself never trims; this definition exists
only to state what "empty after normalization" means in the spec's terms,
for comparison with the code's behavior. -/
def specNormalize (raw : String) : String :=
  jsToUpper
    ⟨((raw.data.dropWhile Char.isWhitespace).reverse.dropWhile
        Char.isWhitespace).reverse⟩

/-- C9 counterexample: the whitespace-only input `"   "` is empty after the
spec's trim + uppercase normalization, yet submitting it is not a no-op:
the code never trims, so the guard `if (!searchTicker)` sees a non-empty
string and one network call is made — and on a successful lookup an entry
with ticker `"   "` is even added to the watchlist. -/
theorem emptySubmit_whitespace_fetches :
    specNormalize "   " = "" ∧
    (submitRaw initialState "   " (.ok demoResp)).2.2 = 1 ∧
    (submitRaw initialState "   " (.ok demoResp)).1.stocksList =
      [{ ticker := "   ", data := buildSnapshot demoFields }] := by
  refine ⟨by decide, by decide, by decide⟩

/-- C9 amended: submitting while the search input is actually empty (the
raw empty string — the code's normalization is uppercase-only, so
whitespace-only input is not empty and does trigger a lookup) is a no-op:
no network call, the watchlist untouched, and afterwards both inline
indicators are off — the handler clears the NotFound flag, and in every
reachable state the AlreadyTracked flag is already false whenever the input
is empty (`reachable_searchEqual_inv`). -/
theorem emptySubmit_noop_flags_off (st : ListState) (outcome : LookupOutcome)
    (hre : Reachable st) (he : st.searchTicker = "") :
    handleSearch st outcome = ({ st with searchError := false }, .noop, 0) ∧
    (handleSearch st outcome).1.searchError = false ∧
    (handleSearch st outcome).1.searchEqual = false ∧
    (handleSearch st outcome).1.stocksList = st.stocksList := by
  have heq : st.searchEqual = false := by
    by_contra hc
    have ht := reachable_searchEqual_inv st hre (by simpa using hc)
    exact ht.1 he
  have h1 : handleSearch st outcome = ({ st with searchError := false }, .noop, 0) := by
    unfold handleSearch
    rw [if_pos he]
  exact ⟨h1, by rw [h1], by rw [h1]; exact heq, by rw [h1]⟩

/-- Witness for `emptySubmit_noop_flags_off` at the initial state. -/
theorem emptySubmit_noop_flags_off_witness :
    handleSearch initialState .netError =
      ({ initialState with searchError := false }, .noop, 0) ∧
    (handleSearch initialState .netError).1.searchError = false ∧
    (handleSearch initialState .netError).1.searchEqual = false ∧
    (handleSearch initialState .netError).1.stocksList = initialState.stocksList := by
  exact emptySubmit_noop_flags_off initialState .netError Reachable.init rfl

/-! ## Claims about the history fetch (C4, C5, C10) -/

/-- C4: when page 1 answers `[p1, p2]` with `total_pages = 2` and page 2
answers `[p3]` with `total_pages = 2`, the query returns the concatenation
`[p1, p2, p3]` in page order using exactly 2 fetch calls (any fuel bound of
at least 2 suffices, so the loop stops by itself after the second call). -/
theorem fetchHistory_two_pages (t : String) (resp : Nat → HistoryPage)
    (p1 p2 p3 : HistoryPoint) (fuel : Nat) (ht : ¬ t = "")
    (h1 : resp 1 = { data := [p1, p2], total_pages := 2 })
    (h2 : resp 2 = { data := [p3], total_pages := 2 }) (hf : 2 ≤ fuel) :
    fetchHistoryQuery t resp fuel = some (.points [p1, p2, p3], 2) := by
  obtain ⟨k, rfl⟩ : ∃ k, fuel = k + 2 := ⟨fuel - 2, by omega⟩
  unfold fetchHistoryQuery
  rw [if_neg ht]
  have e1 : historyLoop resp (k + 1 + 1) 1 [] 0 =
      historyLoop resp (k + 1) 2 [p1, p2] 1 := by
    simp only [historyLoop, h1]
    norm_num
  have e2 : historyLoop resp (k + 1) 2 [p1, p2] 1 = some ([p1, p2, p3], 2) := by
    simp only [historyLoop, h2]
    norm_num
  rw [show k + 2 = k + 1 + 1 from rfl, e1, e2]
  rfl

/-- A throwaway history point for witnesses. -/
def demoPoint (n : Int) : HistoryPoint :=
  { date := "2024-01-01", close := n }

/-- The concrete two-page response stream of the C4 scenario. -/
def demoPages : Nat → HistoryPage :=
  fun n =>
    if n = 1 then { data := [demoPoint 1, demoPoint 2], total_pages := 2 }
    else if n = 2 then { data := [demoPoint 3], total_pages := 2 }
    else { data := [], total_pages := 2 }

/-- Witness for `fetchHistory_two_pages` on `demoPages` with fuel 2. -/
theorem fetchHistory_two_pages_witness :
    fetchHistoryQuery "AAPL" demoPages 2 =
      some (.points [demoPoint 1, demoPoint 2, demoPoint 3], 2) := by
  exact fetchHistory_two_pages "AAPL" demoPages (demoPoint 1) (demoPoint 2)
    (demoPoint 3) 2 (by decide) rfl rfl (by decide)

/-- C5: a malformed first response reporting `total_pages < 1` makes the
`page <= totalPages` test fail right after the first iteration, so the loop
terminates with exactly 1 fetch call and returns that single page's data
(fuel 1 already suffices, and more fuel gives the same answer: no infinite
loop). -/
theorem fetchHistory_malformed_total_pages (t : String)
    (resp : Nat → HistoryPage) (fuel : Nat) (ht : ¬ t = "")
    (hm : (resp 1).total_pages < 1) (hf : 1 ≤ fuel) :
    fetchHistoryQuery t resp fuel = some (.points (resp 1).data, 1) := by
  obtain ⟨k, rfl⟩ : ∃ k, fuel = k + 1 := ⟨fuel - 1, by omega⟩
  unfold fetchHistoryQuery
  rw [if_neg ht]
  have e1 : historyLoop resp (k + 1) 1 [] 0 = some ((resp 1).data, 1) := by
    simp only [historyLoop]
    rw [if_neg (by push_cast; omega)]
    simp
  rw [e1]
  rfl

/-- Witness for `fetchHistory_malformed_total_pages`: one page reporting
`total_pages = 0`, fuel 1. -/
theorem fetchHistory_malformed_total_pages_witness :
    fetchHistoryQuery "AAPL" (fun _ => { data := [demoPoint 9], total_pages := 0 }) 1 =
      some (.points [demoPoint 9], 1) := by
  exact fetchHistory_malformed_total_pages "AAPL"
    (fun _ => { data := [demoPoint 9], total_pages := 0 }) 1
    (by decide) (by decide) (by decide)

/-- C10: with an empty (falsy) ticker the query function returns `null`
after zero fetch calls, and the query is disabled (`enabled: !!ticker`). -/
theorem historyQuery_empty_ticker (resp : Nat → HistoryPage) (fuel : Nat) :
    fetchHistoryQuery "" resp fuel = some (.nullResult, 0) ∧
    historyQueryEnabled "" = false :=
  ⟨rfl, rfl⟩

end Cotacao
